import Mathlib

/-!
Verification of the build orchestration engine of `v2/pkg/commands/build/build.go`
(wails build pipeline).

The Go code is shallowly embedded: every function of `build.go` that the claims
touch becomes a Lean definition with the same name.  Mutation of the shared
`*Options` value is modelled by explicit state passing; the filesystem of the
binary output directory is modelled as a characteristic function `FS`; every
external collaborator (the Go toolchain invoked through the polymorphic
`Builder`, `shell.RunCommand`, `os` file operations, the bindings generator,
the static analyser and the packagers) is resolved through an `Env` record,
and every externally observable action is recorded in an event trace.
`defer` is modelled by running the deferred action on each exit path of the
embedded function; `log.Fatal` (which calls `os.Exit`, skipping deferred
calls) is modelled by the `GoErr.fatal` outcome which skips deferred actions.
Logger output (`outputLogger.Print…`, `println`) has no observable effect on
state and is not modelled.
-/

namespace WailsBuild

/-- One splitting step of Go's `strings.Split` with a one-character separator,
working over the character list of the string.  `strings.Split` never returns
an empty slice: on the empty input it returns one empty field. -/
def splitCharAux (c : Char) : List Char → List (List Char)
  | [] => [[]]
  | x :: xs =>
    if x = c then [] :: splitCharAux c xs
    else
      match splitCharAux c xs with
      | [] => [[x]]
      | h :: t => (x :: h) :: t

/-- Go's `strings.Split s (String.singleton c)`: split `s` at every occurrence
of the character `c`, keeping empty fields. -/
def goSplit (s : String) (c : Char) : List String :=
  (splitCharAux c s.data).map String.mk

/-- Go's `filepath.Join` for the two-argument calls appearing in `build.go`
(none of the concrete arguments need cleaning). -/
def pathJoin (a b : String) : String := a ++ "/" ++ b

/-- Reading a Go `map[string]string` (modelled as an association list):
a missing key yields the zero value `""`, exactly as in Go. -/
def mapGet (m : List (String × String)) (k : String) : String :=
  (m.lookup k).getD ""

/-- The project data consumed by `build.go` (`internal/project.Project`).
Only the fields the embedded code reads or writes are modelled; the two
accessor methods `GetWailsJSDir` and `GetBuildDir` (whose bodies are outside
the shown source) are modelled as the stored values they return. -/
structure Project where
  name : String
  path : String
  preBuildHooks : List (String × String)
  postBuildHooks : List (String × String)
  runNonNativeBuildHooks : Bool
  outputType : String
  outputFilename : String
  wailsJSDir : String
  buildDir : String
deriving DecidableEq, Repr

/-- The `Options` struct of `build.go`.  Fields that the embedded fragment
never reads or writes (`LDFlags`, `Compiler`, UPX/WebView2/delve settings,
`KeepAssets`, `TrimPath`, `RaceDetector`, `WindowsConsole`, `GarbleArgs`,
`ForceBuild`, `BundleName`, `Mode`, `Logger`) are omitted. -/
structure Options where
  userTags : List String := []
  outputType : String := ""
  projectData : Project
  pack : Bool := false
  platform : String := ""
  arch : String := ""
  skipModTidy : Bool := false
  ignoreFrontend : Bool := false
  ignoreApplication : Bool := false
  outputFile : String := ""
  binDirectory : String := ""
  cleanBinDirectory : Bool := false
  compiledBinary : String := ""
  verbosity : Nat := 1
  obfuscated : Bool := false
  skipBindings : Bool := false
  wailsJSDir : String := ""
deriving DecidableEq, Repr

/-- Observable actions of the pipeline: every subprocess invocation,
filesystem provisioning action and the builder's `CleanUp`. -/
inductive Event where
  | cleanUp : Event
  | hookExec : String → String → List String → Event
  | hookSkipped : String → Event
  | mkdirAll : String → Event
  | fileCreate : String → Event
  | genBindings : List String → Bool → Event
  | frontend : Event
  | compile : String → String → Bool → Event
  | lipo : String → String → String → Event
  | fileDelete : String → Event
  | removeSyso : String → Event
  | packageWin : Event
  | packageProj : Event
deriving DecidableEq, Repr

/-- A Go `error` result at the pipeline boundary.  `nil` is the nil error,
`err` a returned error, `fatal` a `log.Fatal` (process exit: deferred calls
do not run and no value is returned to the caller). -/
inductive GoErr where
  | nil : GoErr
  | err : String → GoErr
  | fatal : String → GoErr
deriving DecidableEq, Repr

/-- The files present in the binary output directory, as a characteristic
function on full paths. -/
def FS : Type := String → Bool

/-- A file coming into existence. -/
def fsInsert (fs : FS) (p : String) : FS :=
  fun q => if q = p then true else fs q

/-- A file being removed. -/
def fsErase (fs : FS) (p : String) : FS :=
  fun q => if q = p then false else fs q

/-- An embed directive discovered by static analysis
(`staticanalysis.EmbedDetail`); `fullPath` models its `GetFullPath` result. -/
structure EmbedDetail where
  fullPath : String
deriving DecidableEq, Repr

/-- Results of every external collaborator the embedded code calls.  The
`Builder` interface implementation (`newDesktopBuilder`, selected for both
the `desktop` and the `dev` output types) is outside the shown source, so its
`OutputFilename`, `CompileProject` and `BuildFrontend` behaviours live here;
`shell.RunCommand dir name args` returns `(stdout, stderr, error)`. -/
structure Env where
  goos : String
  getwd : String × Option String
  getEmbedDetails : String → Except String (List EmbedDetail)
  statMissing : String → Bool
  mkdirAll : String → Option String
  createFile : String → Option String
  bindingsGenerate : List String → Bool → Except String String
  frontendResult : Option String
  compileResult : Options → Option String
  outputFilename : Options → String
  runCommand : String → String → List String → String × String × Option String
  removeFile : String → Option String
  deleteFileResult : String → Option String
  packageWindowsResult : Option String
  packageProjectResult : Option String

/-- The token-wise replacement of `executeBuildHook` (build.go:367-373):
`newArg := argReplacements[arg]; if newArg == "" { continue }; args[i] = newArg`. -/
def substOne (argReplacements : List (String × String)) (arg : String) : String :=
  let newArg := mapGet argReplacements arg
  if newArg = "" then arg else newArg

/-- The substituted command line of `executeBuildHook` (build.go:366-373):
the raw hook command is split on spaces and each token is replaced. -/
def substArgs (argReplacements : List (String × String)) (buildHook : String) :
    List String :=
  (goSplit buildHook ' ').map (substOne argReplacements)

/-- Embeds `executeBuildHook` (build.go:347-389).  Returns the events of this
call (a skip notice, or the subprocess invocation) and the Go error.  The
subprocess is `shell.RunCommand(options.BinDirectory, args[0], args[1:]...)`;
on failure the returned error is `fmt.Errorf("%s - %s", err, stderr)`. -/
def executeBuildHook (env : Env) (options : Options) (hookIdentifier : String)
    (argReplacements : List (String × String)) (buildHook : String)
    (hookName : String) : List Event × Option String :=
  if !options.projectData.runNonNativeBuildHooks
      && hookIdentifier ≠ ""
      && (goSplit hookIdentifier '/').headD "" ≠ "*"
      && (goSplit hookIdentifier '/').headD "" ≠ env.goos then
    ([Event.hookSkipped hookIdentifier], none)
  else
    let args := substArgs argReplacements buildHook
    let (_stdout, stderr, runErr) :=
      env.runCommand options.binDirectory (args.headD "") args.tail
    match runErr with
    | some e => ([Event.hookExec hookName hookIdentifier args], some (e ++ " - " ++ stderr))
    | none => ([Event.hookExec hookName hookIdentifier args], none)

/-- Embeds `execPreBuildHook` (build.go:328-335): nothing happens when the
configured command for the key is empty. -/
def execPreBuildHook (env : Env) (options : Options) (hookIdentifier : String)
    (argReplacements : List (String × String)) : List Event × Option String :=
  let preBuildHook := mapGet options.projectData.preBuildHooks hookIdentifier
  if preBuildHook = "" then ([], none)
  else executeBuildHook env options hookIdentifier argReplacements preBuildHook "pre"

/-- Embeds `execPostBuildHook` (build.go:337-345). -/
def execPostBuildHook (env : Env) (options : Options) (hookIdentifier : String)
    (argReplacements : List (String × String)) : List Event × Option String :=
  let postBuildHook := mapGet options.projectData.postBuildHooks hookIdentifier
  if postBuildHook = "" then ([], none)
  else executeBuildHook env options hookIdentifier argReplacements postBuildHook "post"

/-- The hook loops of `Build` (build.go:115-119 and 150-154): each key of the
list is tried in order; the first error returns, otherwise the loop continues
to the end.  There is no break after a successful hook execution. -/
def hookLoop (f : String → List Event × Option String) :
    List String → List Event × Option String
  | [] => ([], none)
  | k :: rest =>
    match f k with
    | (evs, some e) => (evs, some e)
    | (evs, none) =>
      let (evs2, r) := hookLoop f rest
      (evs ++ evs2, r)

/-- The loop body of `CreateEmbedDirectories` (build.go:169-182): for every
embed detail whose full path does not exist, create the directory tree and a
`gitkeep` marker file inside it; the first error returns. -/
def embedLoop (env : Env) : List EmbedDetail → List Event × Option String
  | [] => ([], none)
  | d :: rest =>
    let fullPath := d.fullPath
    if env.statMissing fullPath then
      match env.mkdirAll fullPath with
      | some e => ([Event.mkdirAll fullPath], some e)
      | none =>
        match env.createFile (pathJoin fullPath "gitkeep") with
        | some e =>
          ([Event.mkdirAll fullPath, Event.fileCreate (pathJoin fullPath "gitkeep")], some e)
        | none =>
          let (evs, r) := embedLoop env rest
          (Event.mkdirAll fullPath :: Event.fileCreate (pathJoin fullPath "gitkeep") :: evs, r)
    else
      embedLoop env rest

/-- Embeds `CreateEmbedDirectories` (build.go:159-186).  The Go code falls
back to `cwd` only when `ProjectData` is nil; the model's project data is
always present (as it is on every call from `Build`), so the scanned path is
the project path. -/
def CreateEmbedDirectories (env : Env) (_cwd : String) (buildOptions : Options) :
    List Event × Option String :=
  let path := buildOptions.projectData.path
  match env.getEmbedDetails path with
  | Except.error e => ([], some e)
  | Except.ok embedDetails => embedLoop env embedDetails

/-- Embeds `GenerateBindings` (build.go:188-214).  When obfuscation is on,
`"obfuscated"` is appended to the shared `UserTags` before the external
bindings generator is invoked, and the mutation persists whether or not the
generator succeeds.  Returns the mutated options, this call's events, and the
Go error. -/
def GenerateBindings (env : Env) (buildOptions : Options) :
    Options × List Event × Option String :=
  let buildOptions :=
    if buildOptions.obfuscated then
      { buildOptions with userTags := buildOptions.userTags ++ ["obfuscated"] }
    else buildOptions
  let evs := [Event.genBindings buildOptions.userTags (!buildOptions.skipModTidy)]
  match env.bindingsGenerate buildOptions.userTags (!buildOptions.skipModTidy) with
  | Except.error e => (buildOptions, evs, some e)
  | Except.ok _output => (buildOptions, evs, none)

/-- Modelled from the spec: `Builder.CompileProject` (its implementation is
outside the shown source) compiles for the configuration's current
platform/architecture; on success it produces the binary artifact at the
configured output file inside the output directory and records that path as
the compiled-binary field of the configuration (spec section 4.4); on failure
it returns the toolchain error.  Success or failure comes from the
environment. -/
def compileProject (env : Env) (options : Options) (fs : FS) :
    Options × FS × List Event × Option String :=
  let ev := Event.compile options.arch options.outputFile options.cleanBinDirectory
  match env.compileResult options with
  | some e => (options, fs, [ev], some e)
  | none =>
    ({ options with compiledBinary := pathJoin options.binDirectory options.outputFile },
     fsInsert fs (pathJoin options.binDirectory options.outputFile), [ev], none)

/-- Modelled from the spec: `fs.DeleteFile` (outside the shown source)
removes the file at the given path, or returns an error when deletion
fails. -/
def deleteFile (env : Env) (fs : FS) (path : String) : FS × Option String :=
  match env.deleteFileResult path with
  | some e => (fs, some e)
  | none => (fsErase fs path, none)

/-- The result of the pipeline and of its compile stage: final options,
final filesystem, event trace, returned string value, Go error. -/
structure BuildResult where
  options : Options
  fs : FS
  trace : List Event
  value : String
  errOut : GoErr

/-- The packaging / informational tail of `execBuildApplication`
(build.go:296-325): optional non-Windows packaging, the Windows
experimental-tag message (print-only: it appends the tag to a local copy of
the slice and never writes it back), then `return options.CompiledBinary,
nil`. -/
def afterCompile (env : Env) (options : Options) (fs : FS) (evs : List Event) :
    Options × FS × List Event × String × Option String :=
  if options.pack && options.platform ≠ "windows" then
    match env.packageProjectResult with
    | some e => (options, fs, evs ++ [Event.packageProj], "", some e)
    | none => (options, fs, evs ++ [Event.packageProj], options.compiledBinary, none)
  else
    (options, fs, evs, options.compiledBinary, none)

/-- The compilation part of `execBuildApplication` (build.go:239-294) followed
by its tail `afterCompile`.  In universal-binary mode (darwin/universal) the
configuration is overwritten in place for each architecture pass; `lipo` is
the external fusion tool (its output artifact is modelled from spec section
4.4 step 4: a successful fusion writes the fused binary at the base
filename); both intermediates are then deleted and the fused path is
recorded. -/
def execBuildApplicationBody (env : Env) (options : Options) (fs : FS) :
    Options × FS × List Event × String × Option String :=
  if options.platform = "darwin" && options.arch = "universal" then
    let outputFile := env.outputFilename options
    let amd64Filename := outputFile ++ "-amd64"
    let arm64Filename := outputFile ++ "-arm64"
    let options := { options with
      arch := "amd64", outputFile := amd64Filename, cleanBinDirectory := false }
    match compileProject env options fs with
    | (options, fs, evs1, some e) => (options, fs, evs1, "", some e)
    | (options, fs, evs1, none) =>
      let options := { options with
        arch := "arm64", outputFile := arm64Filename, cleanBinDirectory := false }
      match compileProject env options fs with
      | (options, fs, evs2, some e) => (options, fs, evs1 ++ evs2, "", some e)
      | (options, fs, evs2, none) =>
        let lipoEv := Event.lipo outputFile amd64Filename arm64Filename
        let (_stdout, stderr, lipoErr) :=
          env.runCommand options.binDirectory "lipo"
            ["-create", "-output", outputFile, amd64Filename, arm64Filename]
        match lipoErr with
        | some e => (options, fs, evs1 ++ evs2 ++ [lipoEv], "", some (e ++ " - " ++ stderr))
        | none =>
          let fs := fsInsert fs (pathJoin options.binDirectory outputFile)
          match deleteFile env fs (pathJoin options.binDirectory amd64Filename) with
          | (fs, some e) =>
            (options, fs,
             evs1 ++ evs2 ++ [lipoEv, Event.fileDelete (pathJoin options.binDirectory amd64Filename)],
             "", some e)
          | (fs, none) =>
            match deleteFile env fs (pathJoin options.binDirectory arm64Filename) with
            | (fs, some e) =>
              (options, fs,
               evs1 ++ evs2 ++ [lipoEv, Event.fileDelete (pathJoin options.binDirectory amd64Filename),
                 Event.fileDelete (pathJoin options.binDirectory arm64Filename)],
               "", some e)
            | (fs, none) =>
              let options := { options with
                projectData := { options.projectData with outputFilename := outputFile },
                compiledBinary := pathJoin options.binDirectory outputFile }
              afterCompile env options fs
                (evs1 ++ evs2 ++ [lipoEv, Event.fileDelete (pathJoin options.binDirectory amd64Filename),
                  Event.fileDelete (pathJoin options.binDirectory arm64Filename)])
  else
    match compileProject env options fs with
    | (options, fs, evs, some e) => (options, fs, evs, "", some e)
    | (options, fs, evs, none) => afterCompile env options fs evs

/-- Embeds `execBuildApplication` (build.go:216-326).  When packaging for
Windows, the resource bundle is generated first and its `.syso` file removal
is deferred to function exit; a removal failure is `log.Fatal` (process
exit).  Elsewhere the function is `execBuildApplicationBody`. -/
def execBuildApplication (env : Env) (options : Options) (fs : FS) : BuildResult :=
  if options.pack && options.platform = "windows" then
    match env.packageWindowsResult with
    | some e => ⟨options, fs, [Event.packageWin], "", GoErr.err e⟩
    | none =>
      match execBuildApplicationBody env options fs with
      | (o, f, evs, p, r) =>
        let sysoPath := pathJoin o.projectData.path (o.projectData.name ++ "-res.syso")
        match env.removeFile sysoPath with
        | some e =>
          ⟨o, f, Event.packageWin :: evs ++ [Event.removeSyso sysoPath], "", GoErr.fatal e⟩
        | none =>
          ⟨o, f, Event.packageWin :: evs ++ [Event.removeSyso sysoPath], p,
           match r with | some e => GoErr.err e | none => GoErr.nil⟩
  else
    match execBuildApplicationBody env options fs with
    | (o, f, evs, p, r) =>
      ⟨o, f, evs, p, match r with | some e => GoErr.err e | none => GoErr.nil⟩

/-- The post-build-hook phase of `Build` (build.go:149-156): `${bin}` is added
to the substitution map (a Go map assignment, i.e. an overwrite), the key
list is recomputed from the by-now possibly mutated options, and the compiled
binary path is returned. -/
def stagePostHooks (env : Env) (options : Options) (fs : FS) (evs : List Event)
    (compileBinary : String) (hookArgs : List (String × String)) : BuildResult :=
  let hookArgs := ("${bin}", compileBinary) :: hookArgs
  let postKeys := [options.platform ++ "/" ++ options.arch, options.platform ++ "/*", "*/*"]
  match hookLoop (fun h => execPostBuildHook env options h hookArgs) postKeys with
  | (evs2, some e) => ⟨options, fs, evs ++ evs2, "", GoErr.err e⟩
  | (evs2, none) => ⟨options, fs, evs ++ evs2, compileBinary, GoErr.nil⟩

/-- The application-compile phase of `Build` (build.go:141-147): skipped when
`IgnoreApplication` is set (the `${bin}` value then stays `""`). -/
def stageCompile (env : Env) (options : Options) (fs : FS) (evs : List Event)
    (hookArgs : List (String × String)) : BuildResult :=
  if !options.ignoreApplication then
    match execBuildApplication env options fs with
    | ⟨o, f, evs4, _, GoErr.err e⟩ => ⟨o, f, evs ++ evs4, "", GoErr.err e⟩
    | ⟨o, f, evs4, _, GoErr.fatal e⟩ => ⟨o, f, evs ++ evs4, "", GoErr.fatal e⟩
    | ⟨o, f, evs4, compileBinary, GoErr.nil⟩ =>
      stagePostHooks env o f (evs ++ evs4) compileBinary hookArgs
  else
    stagePostHooks env options fs evs "" hookArgs

/-- The frontend phase of `Build` (build.go:134-139). -/
def stageFrontend (env : Env) (options : Options) (fs : FS) (evs : List Event)
    (hookArgs : List (String × String)) : BuildResult :=
  if !options.ignoreFrontend then
    match env.frontendResult with
    | some e => ⟨options, fs, evs ++ [Event.frontend], "", GoErr.err e⟩
    | none => stageCompile env options fs (evs ++ [Event.frontend]) hookArgs
  else
    stageCompile env options fs evs hookArgs

/-- The bindings phase of `Build` (build.go:126-132). -/
def stageBindings (env : Env) (options : Options) (fs : FS) (evs : List Event)
    (hookArgs : List (String × String)) : BuildResult :=
  if !options.skipBindings then
    match GenerateBindings env options with
    | (options, evs2, some e) => ⟨options, fs, evs ++ evs2, "", GoErr.err e⟩
    | (options, evs2, none) => stageFrontend env options fs (evs ++ evs2) hookArgs
  else
    stageFrontend env options fs evs hookArgs

/-- The embed-provisioning phase of `Build` (build.go:121-124). -/
def stageEmbed (env : Env) (cwd : String) (options : Options) (fs : FS)
    (evs : List Event) (hookArgs : List (String × String)) : BuildResult :=
  match CreateEmbedDirectories env cwd options with
  | (evs2, some e) => ⟨options, fs, evs ++ evs2, "", GoErr.err e⟩
  | (evs2, none) => stageBindings env options fs (evs ++ evs2) hookArgs

/-- The body of `Build` after the builder has been created (build.go:109-156):
the substitution map is built with `${platform}` bound to the entry
`"<platform>/<arch>"`, the pre-build hooks run over the three
specificity-ordered keys, and the remaining phases follow. -/
def buildBody (env : Env) (cwd : String) (options : Options) (fs : FS) : BuildResult :=
  let hookArgs : List (String × String) :=
    [("${platform}", options.platform ++ "/" ++ options.arch)]
  let preKeys := [options.platform ++ "/" ++ options.arch, options.platform ++ "/*", "*/*"]
  match hookLoop (fun h => execPreBuildHook env options h hookArgs) preKeys with
  | (evs, some e) => ⟨options, fs, evs, "", GoErr.err e⟩
  | (evs, none) => stageEmbed env cwd options fs evs hookArgs

/-- The `defer builder.CleanUp()` wrap of `Build` (build.go:106): the deferred
release runs on every function return; a `log.Fatal` exit (`os.Exit`) skips
deferred calls. -/
def finishBuild (r : BuildResult) : BuildResult :=
  match r with
  | ⟨o, f, evs, _, GoErr.fatal e⟩ => ⟨o, f, evs, "", GoErr.fatal e⟩
  | ⟨o, f, evs, p, r⟩ => ⟨o, f, evs ++ [Event.cleanUp], p, r⟩

/-- Embeds `Build` (build.go:73-157).  Before the output type is examined the
configuration is already mutated: `WailsJSDir`, `BinDirectory` and
`ProjectData.OutputType` are set.  Both the `desktop` and the `dev` output
types create the desktop builder (whose behaviour lives in `Env`); any other
output type returns a configuration error.  The builder's deferred `CleanUp`
is `finishBuild`. -/
def Build (env : Env) (options : Options) (fs : FS) : BuildResult :=
  match env.getwd with
  | (_, some e) => ⟨options, fs, [], "", GoErr.err e⟩
  | (cwd, none) =>
    let options := { options with wailsJSDir := options.projectData.wailsJSDir }
    let options := { options with binDirectory := pathJoin options.projectData.buildDir "bin" }
    let options := { options with
      projectData := { options.projectData with outputType := options.outputType } }
    if options.outputType = "desktop" ∨ options.outputType = "dev" then
      finishBuild (buildBody env cwd options fs)
    else
      ⟨options, fs, [], "",
       GoErr.err ("cannot build assets for output type " ++ options.projectData.outputType)⟩

/-! ## Concrete fixtures -/

/-- A benign project: no hooks, native-hook filtering off. -/
def project0 : Project :=
  { name := "demo", path := "proj",
    preBuildHooks := [], postBuildHooks := [],
    runNonNativeBuildHooks := true,
    outputType := "", outputFilename := "",
    wailsJSDir := "proj/wailsjs", buildDir := "proj/build" }

/-- A desktop build of `project0` for linux/amd64. -/
def options0 : Options :=
  { projectData := project0, outputType := "desktop",
    platform := "linux", arch := "amd64" }

/-- An environment where every external collaborator succeeds. -/
def env0 : Env :=
  { goos := "linux",
    getwd := ("cwd", none),
    getEmbedDetails := fun _ => Except.ok [],
    statMissing := fun _ => false,
    mkdirAll := fun _ => none,
    createFile := fun _ => none,
    bindingsGenerate := fun _ _ => Except.ok "",
    frontendResult := none,
    compileResult := fun _ => none,
    outputFilename := fun o => o.projectData.name,
    runCommand := fun _ _ _ => ("", "", none),
    removeFile := fun _ => none,
    deleteFileResult := fun _ => none,
    packageWindowsResult := none,
    packageProjectResult := none }

/-- The empty binary output directory. -/
def fs0 : FS := fun _ => false

/-- A configuration with non-empty pre-build hook commands at both the most
specific key and the global key. -/
def c1Options : Options :=
  { options0 with projectData :=
    { project0 with preBuildHooks := [("linux/amd64", "echo one"), ("*/*", "echo two")] } }

/-- A configuration whose only pre-build hook sits at the global `*/*` key. -/
def c1wOptions : Options :=
  { options0 with projectData :=
    { project0 with preBuildHooks := [("*/*", "echo global")] } }

/-- A configuration with the unrecognized output type `server`. -/
def c3Options : Options :=
  { projectData := project0, outputType := "server", platform := "linux", arch := "amd64" }

/-- A darwin universal-binary configuration (as `Build` would pass it to the
compile stage: the binary directory is already set). -/
def cuOptions : Options :=
  { options0 with
    platform := "darwin", arch := "universal", binDirectory := "proj/build/bin" }

/-- An environment in which both architecture compiles succeed and the `lipo`
fusion tool fails. -/
def c2Env : Env :=
  { env0 with runCommand := fun _ name _ =>
      if name = "lipo" then ("", "lipo boom", some "exit 1") else ("", "", none) }

/-- An environment in which the amd64 compile pass fails. -/
def c8Env : Env :=
  { env0 with compileResult := fun o =>
      if o.arch = "amd64" then some "amd64 compile failed" else none }

/-- An environment in which the bindings generator fails. -/
def c5Env : Env :=
  { env0 with bindingsGenerate := fun _ _ => Except.error "bindings failed" }

/-- The post-compile target shape of the universal-binary overwrites: the
architecture stuck at `arm64`, clean-directory off, and the output file equal
to the recorded base filename suffixed `-arm64`. -/
def univOutcome (x : Options) : Prop :=
  x.arch = "arm64" ∧ x.cleanBinDirectory = false ∧
  x.outputFile = x.projectData.outputFilename ++ "-arm64"

/-! ## C1 -/

/-- C1, counterexample.  The claim says that for each phase exactly the first
specificity-ordered key with a non-empty configured command executes and that
later keys with non-empty commands do not run.  In the configuration
`c1Options` the key `linux/amd64` has the non-empty command `echo one`, yet
the later key `*/*` (command `echo two`) is also executed by the pipeline:
the hook loop of `Build` has no break. -/
theorem c1_counterexample :
    Event.hookExec "pre" "linux/amd64" ["echo", "one"] ∈ (Build env0 c1Options fs0).trace ∧
    Event.hookExec "pre" "*/*" ["echo", "two"] ∈ (Build env0 c1Options fs0).trace := by
  decide

/-- A hook phase over an arbitrary hook map: this is what both
`execPreBuildHook` and `execPostBuildHook` reduce to. -/
theorem hookLoop_of_exec (env : Env) (options : Options) (m : List (String × String))
    (hookMap : List (String × String)) (phase : String) (keys : List String)
    (hnative : options.projectData.runNonNativeBuildHooks = true)
    (hok : ∀ dir c as, (env.runCommand dir c as).2.2 = none) :
    hookLoop (fun h =>
        let cmd := mapGet hookMap h
        if cmd = "" then ([], none)
        else executeBuildHook env options h m cmd phase) keys =
      (keys.filterMap (fun k =>
        let cmd := mapGet hookMap k
        if cmd = "" then none else some (Event.hookExec phase k (substArgs m cmd))), none) := by
  induction keys with
  | nil => rfl
  | cons k rest ih =>
    simp only [hookLoop, List.filterMap_cons]
    by_cases hc : mapGet hookMap k = ""
    · simp [hc, ih]
    · have hexec : executeBuildHook env options k m (mapGet hookMap k) phase =
          ([Event.hookExec phase k (substArgs m (mapGet hookMap k))], none) := by
        unfold executeBuildHook
        rcases hrc : env.runCommand options.binDirectory
            ((substArgs m (mapGet hookMap k)).headD "")
            (substArgs m (mapGet hookMap k)).tail with ⟨out, errtxt, rerr⟩
        have := hok options.binDirectory
            ((substArgs m (mapGet hookMap k)).headD "")
            (substArgs m (mapGet hookMap k)).tail
        rw [hrc] at this
        simp only at this
        subst this
        simp only [List.headD_eq_head?_getD] at hrc
        simp [hnative, hrc]
      simp [hc, hexec, ih]

/-- C1, amended.  The hook keys are evaluated in the fixed specificity order
given by the key list `{platform/arch, platform/*, */*}`, and every key with
a non-empty configured command executes, in that order (not only the first);
a configuration with a hook only at `*/*` still fires when no more specific
key is set.  Stated for both phases over the pre- and post-hook maps, for
any key list, with native-hook filtering off and every hook command
succeeding. -/
theorem c1_amended (env : Env) (options : Options)
    (argReplacements : List (String × String)) (keys : List String)
    (hnative : options.projectData.runNonNativeBuildHooks = true)
    (hok : ∀ dir c as, (env.runCommand dir c as).2.2 = none) :
    hookLoop (fun h => execPreBuildHook env options h argReplacements) keys =
      (keys.filterMap (fun k =>
        let cmd := mapGet options.projectData.preBuildHooks k
        if cmd = "" then none
        else some (Event.hookExec "pre" k (substArgs argReplacements cmd))), none) ∧
    hookLoop (fun h => execPostBuildHook env options h argReplacements) keys =
      (keys.filterMap (fun k =>
        let cmd := mapGet options.projectData.postBuildHooks k
        if cmd = "" then none
        else some (Event.hookExec "post" k (substArgs argReplacements cmd))), none) :=
  ⟨hookLoop_of_exec env options argReplacements options.projectData.preBuildHooks "pre" keys
      hnative hok,
   hookLoop_of_exec env options argReplacements options.projectData.postBuildHooks "post" keys
      hnative hok⟩

/-- C1 witness: with a hook configured only at `*/*`, the specificity-ordered
evaluation still fires exactly that hook. -/
theorem c1_amended_witness :
    hookLoop (fun h => execPreBuildHook env0 c1wOptions h [("${platform}", "linux/amd64")])
        ["linux/amd64", "linux/*", "*/*"] =
      ([Event.hookExec "pre" "*/*" ["echo", "global"]], none) ∧
    hookLoop (fun h => execPostBuildHook env0 c1wOptions h [("${platform}", "linux/amd64")])
        ["linux/amd64", "linux/*", "*/*"] = ([], none) := by
  have h := c1_amended env0 c1wOptions [("${platform}", "linux/amd64")]
    ["linux/amd64", "linux/*", "*/*"] rfl (fun _ _ _ => rfl)
  exact ⟨h.1.trans (by decide), h.2.trans (by decide)⟩

/-! ## Helper lemmas -/

theorem ne_of_length_ne {s t : String} (h : s.length ≠ t.length) : s ≠ t :=
  fun he => h (he ▸ rfl)

theorem length_pos_of_ne_empty {t : String} (ht : t ≠ "") : t.length ≠ 0 :=
  fun h0 => ht (String.ext (List.length_eq_zero.mp h0))

/-- Joining the same directory with a strictly longer (suffixed) file name
gives a different path. -/
theorem pathJoin_suffix_ne (d b t : String) (ht : t ≠ "") :
    pathJoin d (b ++ t) ≠ pathJoin d b := by
  apply ne_of_length_ne
  unfold pathJoin
  simp only [String.length_append]
  have := length_pos_of_ne_empty ht
  omega

/-- `compileProject` on a toolchain failure: state unchanged, error returned. -/
theorem compileProject_err (env : Env) (o : Options) (fs : FS) (e : String)
    (h : env.compileResult o = some e) :
    compileProject env o fs =
      (o, fs, [Event.compile o.arch o.outputFile o.cleanBinDirectory], some e) := by
  unfold compileProject
  rw [h]

/-- `compileProject` on success: the artifact appears in the output directory
and is recorded as the compiled binary. -/
theorem compileProject_ok (env : Env) (o : Options) (fs : FS)
    (h : env.compileResult o = none) :
    compileProject env o fs =
      ({ o with compiledBinary := pathJoin o.binDirectory o.outputFile },
       fsInsert fs (pathJoin o.binDirectory o.outputFile),
       [Event.compile o.arch o.outputFile o.cleanBinDirectory], none) := by
  unfold compileProject
  rw [h]

/-- `afterCompile` never touches the configuration or the filesystem. -/
theorem afterCompile_fields (env : Env) (o : Options) (fs : FS) (evs : List Event) :
    (afterCompile env o fs evs).1 = o ∧ (afterCompile env o fs evs).2.1 = fs := by
  unfold afterCompile
  split
  · rcases h : env.packageProjectResult with _ | e <;> simp [h]
  · simp

/-- Closed form of `afterCompile`: the configuration and the filesystem pass
through unchanged, the packaging event fires only when requested, and the
returned value and error depend only on the packaging result. -/
theorem afterCompile_eq (env : Env) (o : Options) (fs : FS) (evs : List Event) :
    afterCompile env o fs evs =
      (o, fs,
       (if o.pack && o.platform ≠ "windows" then evs ++ [Event.packageProj] else evs),
       (if o.pack && o.platform ≠ "windows" then
          match env.packageProjectResult with
          | some _ => ""
          | none => o.compiledBinary
        else o.compiledBinary),
       (if o.pack && o.platform ≠ "windows" then env.packageProjectResult else none)) := by
  unfold afterCompile
  split
  · rcases h : env.packageProjectResult with _ | e <;> simp_all
  · simp_all

/-! ## C6 -/

/-- The returned options of `GenerateBindings`: the tag append happens before
(and independently of) the external generator call. -/
theorem generateBindings_fst (env : Env) (o : Options) :
    (GenerateBindings env o).1 =
      if o.obfuscated then { o with userTags := o.userTags ++ ["obfuscated"] } else o := by
  unfold GenerateBindings
  by_cases h : o.obfuscated <;>
    simp only [h, if_true, if_false, Bool.false_eq_true] <;>
    rcases hg : env.bindingsGenerate _ _ with e | out <;> simp [hg]

/-- C6.  For every hook command template and substitution map, the template is
split on the space character into tokens and each token is replaced by its
mapped value only if present with a non-empty value; a token absent from the
map is preserved unchanged in the executed command line, and a token whose
mapped value is the empty string is also left unchanged.  (With native-hook
filtering off so that the command is actually executed.) -/
theorem c6_token_substitution (env : Env) (options : Options) (hookIdentifier : String)
    (argReplacements : List (String × String)) (buildHook hookName : String)
    (hnative : options.projectData.runNonNativeBuildHooks = true) :
    (executeBuildHook env options hookIdentifier argReplacements buildHook hookName).1 =
      [Event.hookExec hookName hookIdentifier (substArgs argReplacements buildHook)] ∧
    substArgs argReplacements buildHook =
      (goSplit buildHook ' ').map (fun t =>
        match List.lookup t argReplacements with
        | none => t
        | some v => if v = "" then t else v) ∧
    (∀ t, List.lookup t argReplacements = none → substOne argReplacements t = t) ∧
    (∀ t, List.lookup t argReplacements = some "" → substOne argReplacements t = t) := by
  refine ⟨?_, ?_, ?_, ?_⟩
  · unfold executeBuildHook
    rcases h : env.runCommand options.binDirectory
        ((substArgs argReplacements buildHook).headD "")
        (substArgs argReplacements buildHook).tail with ⟨a, b, c⟩
    simp only [List.headD_eq_head?_getD] at h
    cases c <;> simp [hnative, h]
  · unfold substArgs
    congr 1
    funext t
    unfold substOne mapGet
    rcases hl : List.lookup t argReplacements with _ | v
    · simp
    · simp
  · intro t hl
    unfold substOne mapGet
    rw [hl]
    rfl
  · intro t hl
    unfold substOne mapGet
    rw [hl]
    rfl

/-- C6 witness: the template `upx ${bin} ${missing}` with `${bin}` mapped to
the empty string and `${missing}` absent runs with both tokens preserved. -/
theorem c6_witness :
    (executeBuildHook env0 options0 "*/*" [("${bin}", ""), ("${platform}", "linux/amd64")]
        "upx ${bin} ${missing}" "post").1 =
      [Event.hookExec "post" "*/*" ["upx", "${bin}", "${missing}"]] := by
  have h := c6_token_substitution env0 options0 "*/*"
    [("${bin}", ""), ("${platform}", "linux/amd64")] "upx ${bin} ${missing}" "post" rfl
  exact h.1.trans (by decide)

/-! ## C7 -/

/-- C7.  With the run-non-native-hooks override disabled, a hook whose key
names a specific platform (not `*`, not the empty global key) different from
the host platform is skipped without error and without invoking any
subprocess; and any hook key with platform `*` or the global empty key
proceeds past platform filtering to the subprocess invocation. -/
theorem c7_non_native_hook_skipped (env : Env) (options : Options) (hookIdentifier : String)
    (argReplacements : List (String × String)) (buildHook hookName : String)
    (hnative : options.projectData.runNonNativeBuildHooks = false)
    (hne : hookIdentifier ≠ "")
    (hstar : (goSplit hookIdentifier '/').headD "" ≠ "*")
    (hhost : (goSplit hookIdentifier '/').headD "" ≠ env.goos) :
    executeBuildHook env options hookIdentifier argReplacements buildHook hookName =
      ([Event.hookSkipped hookIdentifier], none) ∧
    ∀ id2 m2 cmd2 name2, (id2 = "" ∨ (goSplit id2 '/').headD "" = "*") →
      (executeBuildHook env options id2 m2 cmd2 name2).1 =
        [Event.hookExec name2 id2 (substArgs m2 cmd2)] := by
  constructor
  · simp only [List.headD_eq_head?_getD] at hstar hhost
    unfold executeBuildHook
    simp [hnative, hne, hstar, hhost]
  · intro id2 m2 cmd2 name2 hid
    unfold executeBuildHook
    rcases h : env.runCommand options.binDirectory
        ((substArgs m2 cmd2).headD "") (substArgs m2 cmd2).tail with ⟨a, b, c⟩
    simp only [List.headD_eq_head?_getD] at h hid
    rcases hid with hid | hid <;> cases c <;> simp [hid, h]

/-- C7 witness: on a linux host with the override disabled, a `windows/amd64`
hook is skipped with no subprocess, while a `*/amd64` hook still runs. -/
theorem c7_witness :
    executeBuildHook env0
        { options0 with projectData := { project0 with runNonNativeBuildHooks := false } }
        "windows/amd64" [] "echo skipped" "pre" =
      ([Event.hookSkipped "windows/amd64"], none) ∧
    (executeBuildHook env0
        { options0 with projectData := { project0 with runNonNativeBuildHooks := false } }
        "*/amd64" [] "echo runs" "pre").1 =
      [Event.hookExec "pre" "*/amd64" ["echo", "runs"]] := by
  have h := c7_non_native_hook_skipped env0
    { options0 with projectData := { project0 with runNonNativeBuildHooks := false } }
    "windows/amd64" [] "echo skipped" "pre" rfl (by decide) (by decide) (by decide)
  exact ⟨h.1, (h.2 "*/amd64" [] "echo runs" "pre" (Or.inr (by decide))).trans (by decide)⟩

/-! ## C10 -/

/-- C10.  With the obfuscation flag set, each call to the bindings stage
permanently appends `"obfuscated"` to the shared `UserTags` of the
configuration (a second call appends it a second time); with the flag unset
the stage leaves `UserTags` unchanged. -/
theorem c10_obfuscated_tag (env : Env) (options : Options)
    (hobf : options.obfuscated = true) :
    ((GenerateBindings env options).1.userTags = options.userTags ++ ["obfuscated"] ∧
     (GenerateBindings env (GenerateBindings env options).1).1.userTags =
       options.userTags ++ ["obfuscated", "obfuscated"]) ∧
    ∀ o2 : Options, o2.obfuscated = false →
      (GenerateBindings env o2).1.userTags = o2.userTags := by
  refine ⟨⟨?_, ?_⟩, ?_⟩
  · rw [generateBindings_fst, if_pos (by simp [hobf])]
  · rw [generateBindings_fst env options, if_pos (by simp [hobf]),
      generateBindings_fst, if_pos (by simp [hobf])]
    simp
  · intro o2 h2
    rw [generateBindings_fst, if_neg (by simp [h2])]

/-- C10 witness: a configuration with tags `["x"]` and obfuscation on gains
the tag once per bindings call, and an unobfuscated configuration keeps its
tags. -/
theorem c10_witness :
    (GenerateBindings env0 { options0 with obfuscated := true, userTags := ["x"] }).1.userTags
      = ["x", "obfuscated"] ∧
    (GenerateBindings env0
        (GenerateBindings env0 { options0 with obfuscated := true, userTags := ["x"] }).1).1.userTags
      = ["x", "obfuscated", "obfuscated"] ∧
    (GenerateBindings env0 options0).1.userTags = [] := by
  have h := c10_obfuscated_tag env0 { options0 with obfuscated := true, userTags := ["x"] } rfl
  exact ⟨h.1.1.trans (by decide), h.1.2.trans (by decide),
    (h.2 options0 rfl).trans (by decide)⟩

/-! ## C3 -/

/-- C3, counterexample.  On the unknown output type `server`, `Build` does
return the configuration error with no hook, no directory creation and no
subprocess (the event trace is empty) — but the configuration and project
state are not unchanged: `WailsJSDir` (entry `""`) has been set to the
project value and `ProjectData.OutputType` (entry `""`) has been overwritten
with `server` before the error return, so the claim as stated is false. -/
theorem c3_counterexample :
    (Build env0 c3Options fs0).errOut =
      GoErr.err "cannot build assets for output type server" ∧
    (Build env0 c3Options fs0).trace = [] ∧
    c3Options.wailsJSDir = "" ∧
    (Build env0 c3Options fs0).options.wailsJSDir = "proj/wailsjs" ∧
    c3Options.projectData.outputType = "" ∧
    (Build env0 c3Options fs0).options.projectData.outputType = "server" ∧
    c3Options.binDirectory = "" ∧
    (Build env0 c3Options fs0).options.binDirectory = "proj/build/bin" := by
  decide

/-- C3, amended.  For every configuration whose output type is neither
`desktop` nor `dev`, `Build` returns the configuration error immediately and
with no side effect (no hook, no directory creation, no subprocess: the event
trace is empty and the filesystem is untouched) — but the configuration is
already mutated on this path: `WailsJSDir`, `BinDirectory` and
`ProjectData.OutputType` are assigned before the output type is examined. -/
theorem c3_amended (env : Env) (options : Options) (fs : FS) (cwd : String)
    (hwd : env.getwd = (cwd, none))
    (h1 : options.outputType ≠ "desktop") (h2 : options.outputType ≠ "dev") :
    Build env options fs =
      ⟨{ options with
           wailsJSDir := options.projectData.wailsJSDir,
           binDirectory := pathJoin options.projectData.buildDir "bin",
           projectData := { options.projectData with outputType := options.outputType } },
        fs, [], "", GoErr.err ("cannot build assets for output type " ++ options.outputType)⟩ := by
  unfold Build
  rw [hwd]
  simp [h1, h2]

/-- C3 witness: the amended statement evaluated on the `server` output
type. -/
theorem c3_amended_witness :
    Build env0 c3Options fs0 =
      ⟨{ c3Options with
           wailsJSDir := c3Options.projectData.wailsJSDir,
           binDirectory := pathJoin c3Options.projectData.buildDir "bin",
           projectData := { c3Options.projectData with outputType := c3Options.outputType } },
        fs0, [], "", GoErr.err ("cannot build assets for output type " ++ c3Options.outputType)⟩ :=
  c3_amended env0 c3Options fs0 "cwd" rfl (by decide) (by decide)

/-! ## C2 -/

/-- C2, counterexample.  The claim says the two per-architecture binaries are
always deleted before the compile stage completes, whether the fusion tool
succeeded or failed.  In `c2Env` both compiles succeed and `lipo` fails: the
stage returns the fusion error, and both intermediate binaries are still
present in the output directory — the deletions at build.go:279-286 are only
reached after a successful `lipo`. -/
theorem c2_counterexample :
    (execBuildApplication c2Env cuOptions fs0).errOut = GoErr.err "exit 1 - lipo boom" ∧
    (execBuildApplication c2Env cuOptions fs0).fs "proj/build/bin/demo-amd64" = true ∧
    (execBuildApplication c2Env cuOptions fs0).fs "proj/build/bin/demo-arm64" = true := by
  decide

/-- C2, amended.  In universal-binary mode the two temporary per-architecture
binaries are deleted after a successful fusion: after any successful run of
the compile stage neither `<base>-amd64` nor `<base>-arm64` exists in the
output directory while the fused artifact at `<base>` does.  (When the fusion
tool fails the stage errors out and the intermediates are not deleted, as the
counterexample shows.) -/
theorem c2_amended (env : Env) (options : Options) (fs : FS)
    (hplat : options.platform = "darwin") (harch : options.arch = "universal")
    (hnil : (execBuildApplication env options fs).errOut = GoErr.nil) :
    (execBuildApplication env options fs).fs
        (pathJoin options.binDirectory (env.outputFilename options ++ "-amd64")) = false ∧
    (execBuildApplication env options fs).fs
        (pathJoin options.binDirectory (env.outputFilename options ++ "-arm64")) = false ∧
    (execBuildApplication env options fs).fs
        (pathJoin options.binDirectory (env.outputFilename options)) = true := by
  have hwn : ¬((options.pack && decide (options.platform = "windows")) = true) := by
    simp [hplat]
  have hup : (decide (options.platform = "darwin") && decide (options.arch = "universal"))
      = true := by
    rw [hplat, harch]; decide
  have hba := (pathJoin_suffix_ne options.binDirectory (env.outputFilename options)
    "-amd64" (by decide)).symm
  have hbr := (pathJoin_suffix_ne options.binDirectory (env.outputFilename options)
    "-arm64" (by decide)).symm
  unfold execBuildApplication execBuildApplicationBody at hnil ⊢
  rw [if_neg hwn, if_pos hup] at hnil ⊢
  rcases hc1 : env.compileResult { options with
      arch := "amd64", outputFile := env.outputFilename options ++ "-amd64",
      cleanBinDirectory := false } with _ | e1
  case some => simp only [compileProject_err _ _ _ _ hc1] at hnil; simp at hnil
  simp only [compileProject_ok _ _ _ hc1] at hnil ⊢
  rcases hc2 : env.compileResult { options with
      arch := "arm64", outputFile := env.outputFilename options ++ "-arm64",
      cleanBinDirectory := false,
      compiledBinary := pathJoin options.binDirectory (env.outputFilename options ++ "-amd64") }
    with _ | e2
  case some => simp only [compileProject_err _ _ _ _ hc2] at hnil; simp at hnil
  simp only [compileProject_ok _ _ _ hc2] at hnil ⊢
  rcases hl : env.runCommand options.binDirectory "lipo"
      ["-create", "-output", env.outputFilename options,
       env.outputFilename options ++ "-amd64", env.outputFilename options ++ "-arm64"]
    with ⟨so, se, le⟩
  simp only [hl] at hnil ⊢
  rcases le with _ | el
  case some => simp at hnil
  rcases hd1 : env.deleteFileResult
      (pathJoin options.binDirectory (env.outputFilename options ++ "-amd64")) with _ | ed1
  case some => simp only [deleteFile, hd1] at hnil; simp at hnil
  simp only [deleteFile, hd1] at hnil ⊢
  rcases hd2 : env.deleteFileResult
      (pathJoin options.binDirectory (env.outputFilename options ++ "-arm64")) with _ | ed2
  case some => simp only [deleteFile, hd2] at hnil; simp at hnil
  simp only [deleteFile, hd2] at hnil ⊢
  simp only [afterCompile_eq]
  simp [fsErase, fsInsert, hba, hbr]

/-- C2 witness: a successful universal build on the all-success environment
leaves no intermediate artifact and the fused artifact present. -/
theorem c2_amended_witness :
    (execBuildApplication env0 cuOptions fs0).fs
        (pathJoin cuOptions.binDirectory (env0.outputFilename cuOptions ++ "-amd64")) = false ∧
    (execBuildApplication env0 cuOptions fs0).fs
        (pathJoin cuOptions.binDirectory (env0.outputFilename cuOptions ++ "-arm64")) = false ∧
    (execBuildApplication env0 cuOptions fs0).fs
        (pathJoin cuOptions.binDirectory (env0.outputFilename cuOptions)) = true :=
  c2_amended env0 cuOptions fs0 (by decide) (by decide) (by decide)

/-! ## C4 -/

/-- C4.  In universal-binary mode, when both architecture compiles succeed and
the fusion tool invocation fails, the compile stage returns the empty path
together with the wrapped fusion error, and the compiled-binary field of the
configuration is not set to the fused path (it still holds the arm64
intermediate recorded by the second compile pass). -/
theorem c4_fusion_failure (env : Env) (options : Options) (fs : FS) (e : String)
    (hplat : options.platform = "darwin") (harch : options.arch = "universal")
    (hc1 : env.compileResult { options with
        arch := "amd64", outputFile := env.outputFilename options ++ "-amd64",
        cleanBinDirectory := false } = none)
    (hc2 : env.compileResult { options with
        arch := "arm64", outputFile := env.outputFilename options ++ "-arm64",
        cleanBinDirectory := false,
        compiledBinary := pathJoin options.binDirectory (env.outputFilename options ++ "-amd64") }
      = none)
    (hlipo : (env.runCommand options.binDirectory "lipo"
        ["-create", "-output", env.outputFilename options,
         env.outputFilename options ++ "-amd64", env.outputFilename options ++ "-arm64"]).2.2
      = some e) :
    (execBuildApplication env options fs).value = "" ∧
    (execBuildApplication env options fs).errOut =
      GoErr.err (e ++ " - " ++ (env.runCommand options.binDirectory "lipo"
        ["-create", "-output", env.outputFilename options,
         env.outputFilename options ++ "-amd64", env.outputFilename options ++ "-arm64"]).2.1) ∧
    (execBuildApplication env options fs).options.compiledBinary =
      pathJoin options.binDirectory (env.outputFilename options ++ "-arm64") ∧
    (execBuildApplication env options fs).options.compiledBinary ≠
      pathJoin options.binDirectory (env.outputFilename options) := by
  have hwn : ¬((options.pack && decide (options.platform = "windows")) = true) := by
    simp [hplat]
  have hup : (decide (options.platform = "darwin") && decide (options.arch = "universal"))
      = true := by
    rw [hplat, harch]; decide
  rcases hl : env.runCommand options.binDirectory "lipo"
      ["-create", "-output", env.outputFilename options,
       env.outputFilename options ++ "-amd64", env.outputFilename options ++ "-arm64"]
    with ⟨so, se, le⟩
  rw [hl] at hlipo
  simp only at hlipo
  subst hlipo
  unfold execBuildApplication execBuildApplicationBody
  rw [if_neg hwn, if_pos hup]
  simp only [compileProject_ok _ _ _ hc1, compileProject_ok _ _ _ hc2, hl]
  exact ⟨trivial, trivial, trivial,
    (pathJoin_suffix_ne options.binDirectory (env.outputFilename options) "-arm64"
      (by decide))⟩

/-- C4 witness: both compiles succeed, `lipo` fails with `exit 1`. -/
theorem c4_witness :
    (execBuildApplication c2Env cuOptions fs0).value = "" ∧
    (execBuildApplication c2Env cuOptions fs0).errOut =
      GoErr.err ("exit 1" ++ " - " ++ (c2Env.runCommand cuOptions.binDirectory "lipo"
        ["-create", "-output", c2Env.outputFilename cuOptions,
         c2Env.outputFilename cuOptions ++ "-amd64",
         c2Env.outputFilename cuOptions ++ "-arm64"]).2.1) ∧
    (execBuildApplication c2Env cuOptions fs0).options.compiledBinary =
      pathJoin cuOptions.binDirectory (c2Env.outputFilename cuOptions ++ "-arm64") ∧
    (execBuildApplication c2Env cuOptions fs0).options.compiledBinary ≠
      pathJoin cuOptions.binDirectory (c2Env.outputFilename cuOptions) :=
  c4_fusion_failure c2Env cuOptions fs0 "exit 1" (by decide) (by decide) (by decide)
    (by decide) (by decide)

/-! ## C8 -/

/-- C8.  In universal-binary mode the compile stage forces amd64 with the
`-amd64` suffixed output file and the clean-directory flag disabled, then
arm64 with the `-arm64` suffix and the flag disabled, and only then invokes
the fusion tool; a first-compile failure prevents the second compile and the
fusion (the stage returns at once with exactly the one compile event), and a
second-compile failure prevents the fusion. -/
theorem c8_universal_compile_order (env : Env) (options : Options) (fs : FS)
    (hplat : options.platform = "darwin") (harch : options.arch = "universal") :
    (∀ e, env.compileResult { options with
        arch := "amd64", outputFile := env.outputFilename options ++ "-amd64",
        cleanBinDirectory := false } = some e →
      execBuildApplication env options fs =
        ⟨{ options with
             arch := "amd64", outputFile := env.outputFilename options ++ "-amd64",
             cleanBinDirectory := false }, fs,
         [Event.compile "amd64" (env.outputFilename options ++ "-amd64") false], "",
         GoErr.err e⟩) ∧
    (∀ e, env.compileResult { options with
        arch := "amd64", outputFile := env.outputFilename options ++ "-amd64",
        cleanBinDirectory := false } = none →
      env.compileResult { options with
        arch := "arm64", outputFile := env.outputFilename options ++ "-arm64",
        cleanBinDirectory := false,
        compiledBinary := pathJoin options.binDirectory (env.outputFilename options ++ "-amd64") }
        = some e →
      execBuildApplication env options fs =
        ⟨{ options with
             arch := "arm64", outputFile := env.outputFilename options ++ "-arm64",
             cleanBinDirectory := false,
             compiledBinary :=
               pathJoin options.binDirectory (env.outputFilename options ++ "-amd64") },
         fsInsert fs (pathJoin options.binDirectory (env.outputFilename options ++ "-amd64")),
         [Event.compile "amd64" (env.outputFilename options ++ "-amd64") false,
          Event.compile "arm64" (env.outputFilename options ++ "-arm64") false], "",
         GoErr.err e⟩) ∧
    (env.compileResult { options with
        arch := "amd64", outputFile := env.outputFilename options ++ "-amd64",
        cleanBinDirectory := false } = none →
      env.compileResult { options with
        arch := "arm64", outputFile := env.outputFilename options ++ "-arm64",
        cleanBinDirectory := false,
        compiledBinary := pathJoin options.binDirectory (env.outputFilename options ++ "-amd64") }
        = none →
      ∃ rest, (execBuildApplication env options fs).trace =
        [Event.compile "amd64" (env.outputFilename options ++ "-amd64") false,
         Event.compile "arm64" (env.outputFilename options ++ "-arm64") false,
         Event.lipo (env.outputFilename options) (env.outputFilename options ++ "-amd64")
           (env.outputFilename options ++ "-arm64")] ++ rest) := by
  have hwn : ¬((options.pack && decide (options.platform = "windows")) = true) := by
    simp [hplat]
  have hup : (decide (options.platform = "darwin") && decide (options.arch = "universal"))
      = true := by
    rw [hplat, harch]; decide
  refine ⟨?_, ?_, ?_⟩
  · intro e hc1
    unfold execBuildApplication execBuildApplicationBody
    rw [if_neg hwn, if_pos hup]
    simp only [compileProject_err _ _ _ _ hc1]
  · intro e hc1 hc2
    unfold execBuildApplication execBuildApplicationBody
    rw [if_neg hwn, if_pos hup]
    simp only [compileProject_ok _ _ _ hc1, compileProject_err _ _ _ _ hc2]
    simp
  · intro hc1 hc2
    unfold execBuildApplication execBuildApplicationBody
    rw [if_neg hwn, if_pos hup]
    simp only [compileProject_ok _ _ _ hc1, compileProject_ok _ _ _ hc2]
    rcases hl : env.runCommand options.binDirectory "lipo"
        ["-create", "-output", env.outputFilename options,
         env.outputFilename options ++ "-amd64", env.outputFilename options ++ "-arm64"]
      with ⟨so, se, le⟩
    simp only [hl]
    rcases le with _ | el
    · rcases hd1 : env.deleteFileResult
          (pathJoin options.binDirectory (env.outputFilename options ++ "-amd64")) with _ | ed1
      · simp only [deleteFile, hd1]
        rcases hd2 : env.deleteFileResult
            (pathJoin options.binDirectory (env.outputFilename options ++ "-arm64")) with _ | ed2
        · simp only [deleteFile, hd2, afterCompile_eq]
          refine ⟨if (options.pack && decide (¬options.platform = "windows")) = true then
              [Event.fileDelete (pathJoin options.binDirectory
                 (env.outputFilename options ++ "-amd64")),
               Event.fileDelete (pathJoin options.binDirectory
                 (env.outputFilename options ++ "-arm64")),
               Event.packageProj]
            else
              [Event.fileDelete (pathJoin options.binDirectory
                 (env.outputFilename options ++ "-amd64")),
               Event.fileDelete (pathJoin options.binDirectory
                 (env.outputFilename options ++ "-arm64"))], ?_⟩
          split <;> simp
        · exact ⟨[Event.fileDelete (pathJoin options.binDirectory
              (env.outputFilename options ++ "-amd64")),
            Event.fileDelete (pathJoin options.binDirectory
              (env.outputFilename options ++ "-arm64"))], by simp [deleteFile, hd2]⟩
      · exact ⟨[Event.fileDelete (pathJoin options.binDirectory
            (env.outputFilename options ++ "-amd64"))], by simp [deleteFile, hd1]⟩
    · exact ⟨[], by simp⟩

/-- C8 witness: with the amd64 pass failing, the stage stops after the single
amd64 compile event with the compile error. -/
theorem c8_witness :
    execBuildApplication c8Env cuOptions fs0 =
      ⟨{ cuOptions with
           arch := "amd64", outputFile := c8Env.outputFilename cuOptions ++ "-amd64",
           cleanBinDirectory := false }, fs0,
       [Event.compile "amd64" (c8Env.outputFilename cuOptions ++ "-amd64") false], "",
       GoErr.err "amd64 compile failed"⟩ :=
  (c8_universal_compile_order c8Env cuOptions fs0 (by decide) (by decide)).1
    "amd64 compile failed" (by decide)

/-! ## C5 -/

/-- If the finished pipeline result is not a `log.Fatal` exit, the deferred
cleanup ran: `Event.cleanUp` is in the trace. -/
theorem finishBuild_cleanup (r : BuildResult)
    (h : ∀ msg, (finishBuild r).errOut ≠ GoErr.fatal msg) :
    Event.cleanUp ∈ (finishBuild r).trace := by
  rcases r with ⟨o, f, evs, p, r⟩
  cases r with
  | nil => simp [finishBuild]
  | err e => simp [finishBuild]
  | fatal e => exact (h e rfl).elim

/-- C5.  Once the builder has been selected (the working directory resolved
and the output type recognized), the builder's `CleanUp` runs on every exit
path of the pipeline that is an ordinary return — success or any mid-pipeline
error return (hook failure, provisioning failure, bindings failure, frontend
failure, compile failure, post-hook failure).  The only exception is the
`log.Fatal` process exit, which is not a return. -/
theorem c5_cleanup_every_exit (env : Env) (options : Options) (fs : FS) (cwd : String)
    (hwd : env.getwd = (cwd, none))
    (htype : options.outputType = "desktop" ∨ options.outputType = "dev")
    (hnotfatal : ∀ msg, (Build env options fs).errOut ≠ GoErr.fatal msg) :
    Event.cleanUp ∈ (Build env options fs).trace := by
  have hBuild : Build env options fs =
      finishBuild (buildBody env cwd
        { options with
            wailsJSDir := options.projectData.wailsJSDir,
            binDirectory := pathJoin options.projectData.buildDir "bin",
            projectData := { options.projectData with outputType := options.outputType } } fs) := by
    unfold Build
    simp only [hwd]
    rw [if_pos htype]
  simp only [hBuild] at hnotfatal ⊢
  exact finishBuild_cleanup _ hnotfatal

/-- C5 witness: a pipeline run whose bindings stage fails still has the
cleanup event in its trace (an error exit path, not only the success
path). -/
theorem c5_witness :
    Event.cleanUp ∈ (Build c5Env options0 fs0).trace ∧
    (Build c5Env options0 fs0).errOut = GoErr.err "bindings failed" := by
  have herr : (Build c5Env options0 fs0).errOut = GoErr.err "bindings failed" := by decide
  exact ⟨c5_cleanup_every_exit c5Env options0 fs0 "cwd" (by decide) (Or.inl (by decide))
    (fun msg h => by rw [herr] at h; exact GoErr.noConfusion h), herr⟩

/-! ## C9 -/

/-- `finishBuild` preserves the final configuration. -/
theorem finishBuild_opts (r : BuildResult) : (finishBuild r).options = r.options := by
  rcases r with ⟨o, f, evs, p, r⟩
  cases r <;> rfl

/-- `finishBuild` preserves the error outcome. -/
theorem finishBuild_err (r : BuildResult) : (finishBuild r).errOut = r.errOut := by
  rcases r with ⟨o, f, evs, p, r⟩
  cases r <;> rfl

/-- The post-hook phase returns the configuration it was given. -/
theorem stagePostHooks_opts (env : Env) (o : Options) (f : FS) (evs : List Event)
    (cb : String) (m : List (String × String)) :
    (stagePostHooks env o f evs cb m).options = o := by
  unfold stagePostHooks
  rcases h : hookLoop (fun h => execPostBuildHook env o h (("${bin}", cb) :: m))
      [o.platform ++ "/" ++ o.arch, o.platform ++ "/*", "*/*"] with ⟨evs2, r⟩
  rcases r with _ | e <;> simp [h]

/-- A successful universal-mode compile stage leaves the configuration with
the arm64 overwrites in place and the base filename recorded. -/
theorem execBuildApplication_univ (env : Env) (o : Options) (fs : FS)
    (hplat : o.platform = "darwin") (harch : o.arch = "universal")
    (hnil : (execBuildApplication env o fs).errOut = GoErr.nil) :
    univOutcome (execBuildApplication env o fs).options := by
  have hwn : ¬((o.pack && decide (o.platform = "windows")) = true) := by
    simp [hplat]
  have hup : (decide (o.platform = "darwin") && decide (o.arch = "universal")) = true := by
    rw [hplat, harch]; decide
  unfold execBuildApplication execBuildApplicationBody at hnil ⊢
  rw [if_neg hwn, if_pos hup] at hnil ⊢
  rcases hc1 : env.compileResult { o with
      arch := "amd64", outputFile := env.outputFilename o ++ "-amd64",
      cleanBinDirectory := false } with _ | e1
  case some => simp only [compileProject_err _ _ _ _ hc1] at hnil; simp at hnil
  simp only [compileProject_ok _ _ _ hc1] at hnil ⊢
  rcases hc2 : env.compileResult { o with
      arch := "arm64", outputFile := env.outputFilename o ++ "-arm64",
      cleanBinDirectory := false,
      compiledBinary := pathJoin o.binDirectory (env.outputFilename o ++ "-amd64") }
    with _ | e2
  case some => simp only [compileProject_err _ _ _ _ hc2] at hnil; simp at hnil
  simp only [compileProject_ok _ _ _ hc2] at hnil ⊢
  rcases hl : env.runCommand o.binDirectory "lipo"
      ["-create", "-output", env.outputFilename o,
       env.outputFilename o ++ "-amd64", env.outputFilename o ++ "-arm64"]
    with ⟨so, se, le⟩
  simp only [hl] at hnil ⊢
  rcases le with _ | el
  case some => simp at hnil
  rcases hd1 : env.deleteFileResult
      (pathJoin o.binDirectory (env.outputFilename o ++ "-amd64")) with _ | ed1
  case some => simp only [deleteFile, hd1] at hnil; simp at hnil
  simp only [deleteFile, hd1] at hnil ⊢
  rcases hd2 : env.deleteFileResult
      (pathJoin o.binDirectory (env.outputFilename o ++ "-arm64")) with _ | ed2
  case some => simp only [deleteFile, hd2] at hnil; simp at hnil
  simp only [deleteFile, hd2] at hnil ⊢
  simp only [afterCompile_eq]
  simp [univOutcome]

/-- The compile phase propagates the universal-mode outcome to the end of the
pipeline when it succeeds. -/
theorem stageCompile_univ (env : Env) (o : Options) (f : FS) (evs : List Event)
    (m : List (String × String))
    (hplat : o.platform = "darwin") (harch : o.arch = "universal")
    (happ : o.ignoreApplication = false)
    (hnil : (stageCompile env o f evs m).errOut = GoErr.nil) :
    univOutcome (stageCompile env o f evs m).options := by
  have happ2 : (!o.ignoreApplication) = true := by rw [happ]; rfl
  unfold stageCompile at hnil ⊢
  rw [if_pos happ2] at hnil ⊢
  rcases hx : execBuildApplication env o f with ⟨xo, xf, xevs, xp, xr⟩
  simp only [hx] at hnil ⊢
  cases xr with
  | nil =>
    rw [stagePostHooks_opts]
    have h2 := execBuildApplication_univ env o f hplat harch (by rw [hx])
    rw [hx] at h2
    exact h2
  | err e => simp at hnil
  | fatal e => simp at hnil

/-- The frontend phase propagates the universal-mode outcome. -/
theorem stageFrontend_univ (env : Env) (o : Options) (f : FS) (evs : List Event)
    (m : List (String × String))
    (hplat : o.platform = "darwin") (harch : o.arch = "universal")
    (happ : o.ignoreApplication = false)
    (hnil : (stageFrontend env o f evs m).errOut = GoErr.nil) :
    univOutcome (stageFrontend env o f evs m).options := by
  unfold stageFrontend at hnil ⊢
  by_cases hig : (!o.ignoreFrontend) = true
  · rw [if_pos hig] at hnil ⊢
    rcases hf : env.frontendResult with _ | e
    · simp only [hf] at hnil ⊢
      exact stageCompile_univ env o f _ m hplat harch happ hnil
    · simp only [hf] at hnil
      simp at hnil
  · rw [if_neg hig] at hnil ⊢
    exact stageCompile_univ env o f evs m hplat harch happ hnil

/-- The bindings phase preserves platform, architecture and the
skip-application flag, and propagates the universal-mode outcome. -/
theorem stageBindings_univ (env : Env) (o : Options) (f : FS) (evs : List Event)
    (m : List (String × String))
    (hplat : o.platform = "darwin") (harch : o.arch = "universal")
    (happ : o.ignoreApplication = false)
    (hnil : (stageBindings env o f evs m).errOut = GoErr.nil) :
    univOutcome (stageBindings env o f evs m).options := by
  unfold stageBindings at hnil ⊢
  by_cases hsb : (!o.skipBindings) = true
  · rw [if_pos hsb] at hnil ⊢
    rcases hg : GenerateBindings env o with ⟨o2, evs2, r⟩
    have ho2 : o2 = if o.obfuscated then
        { o with userTags := o.userTags ++ ["obfuscated"] } else o := by
      rw [← generateBindings_fst env o, hg]
    have hp2 : o2.platform = "darwin" := by rw [ho2]; split <;> simpa using hplat
    have ha2 : o2.arch = "universal" := by rw [ho2]; split <;> simpa using harch
    have hap2 : o2.ignoreApplication = false := by rw [ho2]; split <;> simpa using happ
    simp only [hg] at hnil ⊢
    rcases r with _ | e
    · exact stageFrontend_univ env o2 f _ m hp2 ha2 hap2 hnil
    · simp at hnil
  · rw [if_neg hsb] at hnil ⊢
    exact stageFrontend_univ env o f evs m hplat harch happ hnil

/-- The embed-provisioning phase propagates the universal-mode outcome. -/
theorem stageEmbed_univ (env : Env) (cwd : String) (o : Options) (f : FS)
    (evs : List Event) (m : List (String × String))
    (hplat : o.platform = "darwin") (harch : o.arch = "universal")
    (happ : o.ignoreApplication = false)
    (hnil : (stageEmbed env cwd o f evs m).errOut = GoErr.nil) :
    univOutcome (stageEmbed env cwd o f evs m).options := by
  unfold stageEmbed at hnil ⊢
  rcases hce : CreateEmbedDirectories env cwd o with ⟨evs2, r⟩
  simp only [hce] at hnil ⊢
  rcases r with _ | e
  · exact stageBindings_univ env o f _ m hplat harch happ hnil
  · simp at hnil

/-- The pipeline body propagates the universal-mode outcome. -/
theorem buildBody_univ (env : Env) (cwd : String) (o : Options) (f : FS)
    (hplat : o.platform = "darwin") (harch : o.arch = "universal")
    (happ : o.ignoreApplication = false)
    (hnil : (buildBody env cwd o f).errOut = GoErr.nil) :
    univOutcome (buildBody env cwd o f).options := by
  unfold buildBody at hnil ⊢
  rcases hhl : hookLoop
      (fun h => execPreBuildHook env o h [("${platform}", o.platform ++ "/" ++ o.arch)])
      [o.platform ++ "/" ++ o.arch, o.platform ++ "/*", "*/*"] with ⟨evs, r⟩
  simp only [hhl] at hnil ⊢
  rcases r with _ | e
  · exact stageEmbed_univ env cwd o f _ _ hplat harch happ hnil
  · simp at hnil

/-- C9.  After a successful universal-binary pipeline run, the mid-pipeline
overwrites of the configuration are never restored: the caller-visible
options end with architecture `arm64`, the clean-directory flag off, and the
output file equal to the recorded base filename suffixed `-arm64`, regardless
of the values of those fields at entry. -/
theorem c9_universal_overwrites_persist (env : Env) (options : Options) (fs : FS)
    (cwd : String)
    (hwd : env.getwd = (cwd, none))
    (hplat : options.platform = "darwin") (harch : options.arch = "universal")
    (happ : options.ignoreApplication = false)
    (hnil : (Build env options fs).errOut = GoErr.nil) :
    (Build env options fs).options.arch = "arm64" ∧
    (Build env options fs).options.cleanBinDirectory = false ∧
    (Build env options fs).options.outputFile =
      (Build env options fs).options.projectData.outputFilename ++ "-arm64" := by
  by_cases htype : options.outputType = "desktop" ∨ options.outputType = "dev"
  · have hBuild : Build env options fs =
        finishBuild (buildBody env cwd
          { options with
              wailsJSDir := options.projectData.wailsJSDir,
              binDirectory := pathJoin options.projectData.buildDir "bin",
              projectData := { options.projectData with outputType := options.outputType } }
          fs) := by
      unfold Build
      simp only [hwd]
      rw [if_pos htype]
    rw [hBuild] at hnil ⊢
    rw [finishBuild_err] at hnil
    rw [finishBuild_opts]
    exact buildBody_univ env cwd _ fs hplat harch happ hnil
  · have hBuild2 : Build env options fs =
        ⟨{ options with
             wailsJSDir := options.projectData.wailsJSDir,
             binDirectory := pathJoin options.projectData.buildDir "bin",
             projectData := { options.projectData with outputType := options.outputType } },
          fs, [], "",
          GoErr.err ("cannot build assets for output type " ++ options.outputType)⟩ := by
      unfold Build
      simp only [hwd]
      rw [if_neg htype]
    rw [hBuild2] at hnil
    simp at hnil

/-- C9 witness: a fully successful darwin/universal desktop build ends with
arch `arm64`, clean-directory off, and output file `demo-arm64` even though
it entered with arch `universal` and an empty output file. -/
theorem c9_witness :
    cuOptions.arch = "universal" ∧ cuOptions.outputFile = "" ∧
    (Build env0 cuOptions fs0).options.arch = "arm64" ∧
    (Build env0 cuOptions fs0).options.cleanBinDirectory = false ∧
    (Build env0 cuOptions fs0).options.outputFile =
      (Build env0 cuOptions fs0).options.projectData.outputFilename ++ "-arm64" := by
  have h := c9_universal_overwrites_persist env0 cuOptions fs0 "cwd" (by decide) (by decide)
    (by decide) (by decide) (by decide)
  exact ⟨by decide, by decide, h.1, h.2.1, h.2.2⟩

end WailsBuild
